import Mathlib

/-!
Shallow embedding of `src/libs/hardware_interface/embedded/picoIMU/picoIMU.ino`
(the serial framing protocol, byte-at-a-time parser state machine, message
dispatcher, home-relative angle wrapping and the velocity integrator), together
with theorems settling the claims about that code.

Modelling conventions:
* machine integers are `Nat` with explicit `% 2^w` exactly where the C code
  relies on fixed-width wraparound (`uint8` casts at byte boundaries, the
  `uint16` checksum accumulator, `uint32` timestamp subtraction);
* the fixed 128-byte `payload_buf` array is modelled as a function
  `Nat → Nat` updated pointwise; each store `payload_buf[payload_idx++] = b`
  is additionally recorded as an explicit `Ev.write` event so that buffer
  index safety is directly observable;
* `Serial.write` output performed by `sendMsg` is recorded as an `Ev.send`
  event carrying the message id, source, destination and payload bytes;
  a completed checksum-valid frame (the point where `processOneByte` enters
  its dispatch `switch`) is recorded as an `Ev.frame` event;
* the `float` fields packed into telemetry responses travel through the wire
  model as opaque 32-bit bit patterns (`Nat < 2^32`); the float computation
  `wrap180(angle - home)` of `respondIMU` is an uninterpreted parameter
  `wsub : Nat → Nat → Nat` on bit patterns - no wire-level claim depends on
  its value;
* `micros()` is an ambient `now : Nat` parameter;
* the exact-value (rational / real) semantics of `wrap180` and of the
  velocity integrator are modelled separately further below.
-/

/-! ### Protocol constants (picoIMU.ino lines 22-38, 58-59, 171) -/

/-- Marker byte 1, `'B'` (line 22). -/
def START1 : Nat := 66

/-- Marker byte 2, `'R'` (line 23). -/
def START2 : Nat := 82

def MSG_GET_IMU : Nat := 0x0101
def MSG_SET_HOME : Nat := 0x0102
def MSG_RESET_VEL : Nat := 0x0103
def MSG_RESP_IMU : Nat := 0x8101
def MSG_ACK : Nat := 0x8000
def MSG_NACK : Nat := 0x8001

def ERR_BAD_LENGTH : Nat := 1
def ERR_UNKNOWN_MSG : Nat := 2
def ERR_MALFORMED : Nat := 3

/-- This node's identifier (line 37). -/
def DEVICE_ID : Nat := 1

/-- The host PC's identifier (line 38). -/
def HOST_ID : Nat := 0

/-- Maximum payload size accepted by the parser (line 171). -/
def MAX_PAYLOAD : Nat := 128

/-! ### Packing helpers (lines 82-90) -/

/-- `putLE16` (line 82): two little-endian bytes of a `uint16`. -/
def putLE16 (v : Nat) : List Nat := [v % 256, (v >>> 8) % 256]

/-- `putLE32` (line 83): four little-endian bytes of a `uint32`.
`putF32` (line 84) is `putLE32` applied to the float's bit pattern. -/
def putLE32 (v : Nat) : List Nat :=
  [v % 256, (v >>> 8) % 256, (v >>> 16) % 256, (v >>> 24) % 256]

/-- `checksum16` (lines 86-90): byte sum truncated to `uint16`.
The C accumulator is `uint32` and is cast to `uint16` at the end; since
`2^16 ∣ 2^32` the result is the plain sum mod `2^16`. -/
def checksum16 (data : List Nat) : Nat := (data.foldr (· + ·) 0) % 65536

/-- `sendMsg` (lines 92-108) viewed as an encoder: the exact byte sequence
written to the serial port.  The C function takes the payload length as a
separate `uint16_t plen` argument; every call site passes the true length of
the payload buffer, so the model uses `payload.length % 65536` (the `uint16`
cast of the length).  `src`/`dst` are `uint8_t` parameters, hence `% 256`. -/
def sendMsgBytes (msgId src dst : Nat) (payload : List Nat) : List Nat :=
  let hdr : List Nat :=
    [START1, START2] ++ putLE16 (payload.length % 65536) ++
      putLE16 (msgId % 65536) ++ [src % 256, dst % 256]
  let cksum := (checksum16 hdr + checksum16 payload) % 65536
  hdr ++ payload ++ putLE16 cksum

/-- Telemetry response payload built by `respondIMU` (lines 118-141):
`u32 micros`, `u8 rv_status`, `u8 la_status`, then nine `f32` fields
(roll, pitch, yaw, vx, vy, vz, lax, lay, laz) as little-endian bit
patterns. -/
def telemPayload (t rv la r p y vx vy vz ax ay az : Nat) : List Nat :=
  putLE32 t ++ [rv % 256, la % 256] ++ putLE32 r ++ putLE32 p ++ putLE32 y ++
    putLE32 vx ++ putLE32 vy ++ putLE32 vz ++ putLE32 ax ++ putLE32 ay ++ putLE32 az

/-- The `memcpy(&f, payload+i, 4)` of `setHomeExplicit` (lines 151-153) on a
little-endian target: reassemble the 32-bit pattern from 4 payload bytes. -/
def word32At (p : List Nat) (i : Nat) : Nat :=
  p.getD i 0 + 256 * p.getD (i + 1) 0 + 65536 * p.getD (i + 2) 0 +
    16777216 * p.getD (i + 3) 0

/-! ### Parser state machine (lines 165-235) -/

/-- `ParseState` (line 166). -/
inductive PS where
  | PS_FIND_S1 | PS_FIND_S2 | PS_LEN0 | PS_LEN1 | PS_ID0 | PS_ID1
  | PS_SRC | PS_DST | PS_PAYLOAD | PS_CK0 | PS_CK1
  deriving DecidableEq

open PS

/-- A completed frame: the parser registers at the moment the dispatch
`switch` of `processOneByte` is reached with a matching checksum. -/
structure Frame where
  len : Nat
  msgId : Nat
  src : Nat
  dst : Nat
  payload : List Nat
  deriving DecidableEq

/-- One `sendMsg` invocation (an outgoing frame on the serial port). -/
structure Send where
  msgId : Nat
  src : Nat
  dst : Nat
  payload : List Nat
  deriving DecidableEq

/-- Observable events of one `processOneByte` step. -/
inductive Ev where
  /-- a store `payload_buf[i] = b` (line 202) -/
  | write (i b : Nat)
  /-- a completed checksum-valid frame reaching the dispatch switch (line 209) -/
  | frame (f : Frame)
  /-- a `sendMsg` call (serial output) -/
  | send (s : Send)
  deriving DecidableEq

/-- The mutable state of the node: parser registers (lines 167-173) plus the
telemetry / home state read and written by the dispatcher (lines 44-55).
Float-valued globals are carried as 32-bit bit patterns. -/
structure NodeState where
  ps : PS
  pl_len : Nat
  msg_id : Nat
  src_id : Nat
  dst_id : Nat
  recv_ck : Nat
  calc_ck : Nat
  payload_idx : Nat
  /-- contents of `payload_buf` -/
  buf : Nat → Nat
  /-- `rpy.roll/pitch/yaw` bit patterns -/
  rollBits : Nat
  pitchBits : Nat
  yawBits : Nat
  rv_status : Nat
  la_status : Nat
  /-- `vx, vy, vz` bit patterns -/
  vxBits : Nat
  vyBits : Nat
  vzBits : Nat
  /-- `lax, lay, laz` bit patterns -/
  laxBits : Nat
  layBits : Nat
  lazBits : Nat
  homeRollBits : Nat
  homePitchBits : Nat
  homeYawBits : Nat
  homeSet : Bool
  last_la_us : Nat

/-- Initial state: all globals zero-initialised, parser in `PS_FIND_S1`
(lines 44-55, 167-173). -/
def initState : NodeState where
  ps := PS_FIND_S1
  pl_len := 0
  msg_id := 0
  src_id := 0
  dst_id := 0
  recv_ck := 0
  calc_ck := 0
  payload_idx := 0
  buf := fun _ => 0
  rollBits := 0
  pitchBits := 0
  yawBits := 0
  rv_status := 0
  la_status := 0
  vxBits := 0
  vyBits := 0
  vzBits := 0
  laxBits := 0
  layBits := 0
  lazBits := 0
  homeRollBits := 0
  homePitchBits := 0
  homeYawBits := 0
  homeSet := false
  last_la_us := 0

/-- `x |= b << 8` applied to a register that currently holds `x`:
the bitwise-or of the low register value with the shifted high byte
(lines 189, 193, 208). -/
def orByte (lo hi : Nat) : Nat := lo ||| (hi <<< 8)

/-- The payload slice `payload_buf[0 .. pl_len)` handed to the dispatcher. -/
def payloadList (st : NodeState) : List Nat :=
  (List.range st.pl_len).map st.buf

/-- `resetParser` (line 175): clears the parser registers only;
`payload_buf` contents and all telemetry state persist. -/
def resetParser (st : NodeState) : NodeState :=
  { st with ps := PS_FIND_S1, pl_len := 0, msg_id := 0, src_id := 0,
            dst_id := 0, recv_ck := 0, calc_ck := 0, payload_idx := 0 }

/-- `setHomeCurrent` (lines 143-146). -/
def setHomeCurrent (st : NodeState) : NodeState :=
  { st with homeRollBits := st.rollBits, homePitchBits := st.pitchBits,
            homeYawBits := st.yawBits, homeSet := true }

/-- `setHomeExplicit` (lines 148-157).  Addresses its ACK / NACK to the fixed
`HOST_ID`, not to the requester's source id. -/
def setHomeExplicit (st : NodeState) (payload : List Nat) : NodeState × List Ev :=
  if payload.length ≠ 12 then
    (st, [Ev.send ⟨MSG_NACK, DEVICE_ID, HOST_ID, [ERR_BAD_LENGTH]⟩])
  else
    ({ st with homeRollBits := word32At payload 0,
               homePitchBits := word32At payload 4,
               homeYawBits := word32At payload 8,
               homeSet := true },
     [Ev.send ⟨MSG_ACK, DEVICE_ID, HOST_ID, []⟩])

/-- `resetVelocity` (lines 159-163): zero bit pattern is float `0.0f`;
re-baselines `last_la_us` to `micros()`.  ACK goes to the fixed `HOST_ID`. -/
def resetVelocity (st : NodeState) (now : Nat) : NodeState × List Ev :=
  ({ st with vxBits := 0, vyBits := 0, vzBits := 0, last_la_us := now },
   [Ev.send ⟨MSG_ACK, DEVICE_ID, HOST_ID, []⟩])

/-- `respondIMU` (lines 118-141).  `wsub a b` is the uninterpreted bit-level
model of the float computation `wrap180(value(a) - value(b))` used on
lines 123-125; when no home is set the raw orientation bits are packed. -/
def respondIMU (wsub : Nat → Nat → Nat) (st : NodeState) (reqSrc now : Nat) :
    List Ev :=
  let r := if st.homeSet then wsub st.rollBits st.homeRollBits else st.rollBits
  let p := if st.homeSet then wsub st.pitchBits st.homePitchBits else st.pitchBits
  let y := if st.homeSet then wsub st.yawBits st.homeYawBits else st.yawBits
  [Ev.send ⟨MSG_RESP_IMU, DEVICE_ID, reqSrc,
    telemPayload now st.rv_status st.la_status r p y
      st.vxBits st.vyBits st.vzBits st.laxBits st.layBits st.lazBits⟩]

/-- The dispatch `switch (msg_id)` of `processOneByte` (lines 211-227),
reached only for a checksum-valid frame whose destination passed the
filter. -/
def handleMsg (wsub : Nat → Nat → Nat) (st : NodeState) (now : Nat) :
    NodeState × List Ev :=
  if st.msg_id = MSG_GET_IMU then
    if st.pl_len ≠ 0 then
      (st, [Ev.send ⟨MSG_NACK, DEVICE_ID, st.src_id, [ERR_BAD_LENGTH]⟩])
    else (st, respondIMU wsub st st.src_id now)
  else if st.msg_id = MSG_SET_HOME then
    if st.pl_len = 0 then
      (setHomeCurrent st, [Ev.send ⟨MSG_ACK, DEVICE_ID, st.src_id, []⟩])
    else setHomeExplicit st (payloadList st)
  else if st.msg_id = MSG_RESET_VEL then
    if st.pl_len ≠ 0 then
      (st, [Ev.send ⟨MSG_NACK, DEVICE_ID, st.src_id, [ERR_BAD_LENGTH]⟩])
    else resetVelocity st now
  else
    (st, [Ev.send ⟨MSG_NACK, DEVICE_ID, st.src_id, [ERR_UNKNOWN_MSG]⟩])

/-- `processOneByte` (lines 177-235).  The argument byte is a `uint8_t`,
modelled by the `% 256` reduction on entry.  Returns the successor state and
the observable events of this step. -/
def processOneByte (wsub : Nat → Nat → Nat) (st : NodeState) (b now : Nat) :
    NodeState × List Ev :=
  let b := b % 256
  match st.ps with
  | PS_FIND_S1 =>
      if b = START1 then ({ st with calc_ck := b, ps := PS_FIND_S2 }, [])
      else (st, [])
  | PS_FIND_S2 =>
      if b = START2 then
        ({ st with calc_ck := (st.calc_ck + b) % 65536, ps := PS_LEN0 }, [])
      else ({ st with ps := PS_FIND_S1 }, [])
  | PS_LEN0 =>
      ({ st with pl_len := b, calc_ck := (st.calc_ck + b) % 65536,
                 ps := PS_LEN1 }, [])
  | PS_LEN1 =>
      ({ st with pl_len := orByte st.pl_len b,
                 calc_ck := (st.calc_ck + b) % 65536, ps := PS_ID0 }, [])
  | PS_ID0 =>
      ({ st with msg_id := b, calc_ck := (st.calc_ck + b) % 65536,
                 ps := PS_ID1 }, [])
  | PS_ID1 =>
      ({ st with msg_id := orByte st.msg_id b,
                 calc_ck := (st.calc_ck + b) % 65536, ps := PS_SRC }, [])
  | PS_SRC =>
      ({ st with src_id := b, calc_ck := (st.calc_ck + b) % 65536,
                 ps := PS_DST }, [])
  | PS_DST =>
      let st1 := { st with dst_id := b, calc_ck := (st.calc_ck + b) % 65536 }
      if MAX_PAYLOAD < st1.pl_len then ({ st1 with ps := PS_FIND_S1 }, [])
      else
        ({ st1 with payload_idx := 0,
                    ps := if st1.pl_len = 0 then PS_CK0 else PS_PAYLOAD }, [])
  | PS_PAYLOAD =>
      let st1 := { st with buf := Function.update st.buf st.payload_idx b,
                           payload_idx := st.payload_idx + 1,
                           calc_ck := (st.calc_ck + b) % 65536 }
      ({ st1 with ps := if st.pl_len ≤ st1.payload_idx then PS_CK0 else PS_PAYLOAD },
       [Ev.write st.payload_idx b])
  | PS_CK0 =>
      ({ st with recv_ck := b, ps := PS_CK1 }, [])
  | PS_CK1 =>
      let recv := orByte st.recv_ck b
      if recv = st.calc_ck then
        let fr : Frame := ⟨st.pl_len, st.msg_id, st.src_id, st.dst_id, payloadList st⟩
        let r :=
          if st.dst_id = DEVICE_ID ∨ st.dst_id = 255 then handleMsg wsub st now
          else (st, [])
        (resetParser r.1, Ev.frame fr :: r.2)
      else
        (resetParser st,
         [Ev.send ⟨MSG_NACK, DEVICE_ID, st.src_id, [ERR_MALFORMED]⟩])

/-- Feed a byte sequence through the parser (`pollSerial`, lines 237-242),
collecting all events in order. -/
def run (wsub : Nat → Nat → Nat) : NodeState → Nat → List Nat → NodeState × List Ev
  | st, _, [] => (st, [])
  | st, now, b :: bs =>
      let r1 := processOneByte wsub st b now
      let r2 := run wsub r1.1 now bs
      (r2.1, r1.2 ++ r2.2)

/-- Completed checksum-valid frames among a list of events. -/
def framesOf (evs : List Ev) : List Frame :=
  evs.filterMap fun e => match e with | Ev.frame f => some f | _ => none

/-- Serial output (frames emitted by `sendMsg`) among a list of events. -/
def sendsOf (evs : List Ev) : List Send :=
  evs.filterMap fun e => match e with | Ev.send s => some s | _ => none

/-- A write event stays inside the 128-byte `payload_buf`. -/
def writeOk : Ev → Bool
  | Ev.write i _ => i < MAX_PAYLOAD
  | _ => true

/-! ### `wrap180` over exact arithmetic (lines 61-65)

The C function operates on `float`.  For the range / zero claims it is
modelled over `ℚ` (exact arithmetic, no rounding); the counterexample value
`-180` is exactly representable in binary floating point, so it transfers
verbatim to the C semantics. -/

/-- First loop of `wrap180` (line 62): `while (aDeg > 180) aDeg -= 360`. -/
def wrapSub (x : ℚ) : ℚ :=
  if h : 180 < x then wrapSub (x - 360) else x
termination_by (⌈(x - 180) / 360⌉).toNat
decreasing_by
  have h1 : (0 : ℚ) < (x - 180) / 360 := div_pos (by linarith) (by norm_num)
  have h2 : (0 : ℤ) < ⌈(x - 180) / 360⌉ := Int.ceil_pos.mpr h1
  have h3 : (x - 360 - 180) / 360 = (x - 180) / 360 - 1 := by ring
  rw [h3, Int.ceil_sub_one]
  omega

/-- Second loop of `wrap180` (line 63): `while (aDeg < -180) aDeg += 360`. -/
def wrapAdd (x : ℚ) : ℚ :=
  if h : x < -180 then wrapAdd (x + 360) else x
termination_by (⌈(-180 - x) / 360⌉).toNat
decreasing_by
  have h1 : (0 : ℚ) < (-180 - x) / 360 := div_pos (by linarith) (by norm_num)
  have h2 : (0 : ℤ) < ⌈(-180 - x) / 360⌉ := Int.ceil_pos.mpr h1
  have h3 : (-180 - (x + 360)) / 360 = (-180 - x) / 360 - 1 := by ring
  rw [h3, Int.ceil_sub_one]
  omega

/-- `wrap180` (lines 61-65): subtract-loop then add-loop. -/
def wrap180 (x : ℚ) : ℚ := wrapAdd (wrapSub x)

/-- The home-relative orientation computed by `respondIMU` (lines 123-125),
over exact angle values: component-wise `wrap180(sample - home)` when a home
is set, the raw sample otherwise. -/
def applyHome (homeSet : Bool) (roll pitch yaw hr hp hy : ℚ) : ℚ × ℚ × ℚ :=
  (if homeSet then wrap180 (roll - hr) else roll,
   if homeSet then wrap180 (pitch - hp) else pitch,
   if homeSet then wrap180 (yaw - hy) else yaw)

/-! ### `wrap180` over IEEE-754 special values (for the liveness claim)

`setHomeExplicit` reinterprets arbitrary request bytes as floats, so home
components can be `±inf`; `respondIMU` then runs `wrap180` on
`rpy.yaw - homeYaw`.  To reason about (non-)termination of the `while`
loops we model the floats as exact values extended with the IEEE special
values and give each loop an explicit fuel: `none` means the loop has not
exited within the given fuel.  Only the special-value rules matter for the
claims; finite arithmetic is idealised as exact. -/

inductive F32 where
  | fin : ℚ → F32
  | inf
  | ninf
  | nan
  deriving DecidableEq

/-- IEEE `<` on the modelled floats: comparisons with NaN are false. -/
def f32lt : F32 → F32 → Bool
  | F32.nan, _ => false
  | _, F32.nan => false
  | F32.fin a, F32.fin b => decide (a < b)
  | F32.fin _, F32.inf => true
  | F32.fin _, F32.ninf => false
  | F32.inf, _ => false
  | F32.ninf, F32.ninf => false
  | F32.ninf, _ => true

def f32neg : F32 → F32
  | F32.fin a => F32.fin (-a)
  | F32.inf => F32.ninf
  | F32.ninf => F32.inf
  | F32.nan => F32.nan

/-- IEEE addition on the modelled floats (finite case idealised as exact). -/
def f32add : F32 → F32 → F32
  | F32.nan, _ => F32.nan
  | _, F32.nan => F32.nan
  | F32.inf, F32.ninf => F32.nan
  | F32.ninf, F32.inf => F32.nan
  | F32.inf, _ => F32.inf
  | _, F32.inf => F32.inf
  | F32.ninf, _ => F32.ninf
  | _, F32.ninf => F32.ninf
  | F32.fin a, F32.fin b => F32.fin (a + b)

def f32sub (a b : F32) : F32 := f32add a (f32neg b)

/-- Fuelled first loop of `wrap180` (line 62) over modelled floats. -/
def wrapSubF (fuel : Nat) (x : F32) : Option F32 :=
  if f32lt (F32.fin 180) x then
    match fuel with
    | 0 => none
    | n + 1 => wrapSubF n (f32sub x (F32.fin 360))
  else some x

/-- Fuelled second loop of `wrap180` (line 63) over modelled floats. -/
def wrapAddF (fuel : Nat) (x : F32) : Option F32 :=
  if f32lt x (F32.fin (-180)) then
    match fuel with
    | 0 => none
    | n + 1 => wrapAddF n (f32add x (F32.fin 360))
  else some x

/-- Fuelled `wrap180` over modelled floats: `none` iff one of the two
`while` loops fails to exit within `fuel` iterations. -/
def wrap180F (fuel : Nat) (x : F32) : Option F32 :=
  (wrapSubF fuel x).bind (wrapAddF fuel)

/-! ### Velocity integrator (lines 55-59, 284-318)

The `SH2_LINEAR_ACCELERATION` branch of `loop()`: latch the sample, compute
`dt` from the `uint32` `micros()` delta, and when `dt < 0.5` either
integrate (`|a|` above the dead-band) or decay exponentially.  Velocities
are modelled over `ℝ` (the decay factor is `exp`); accelerations, `dt` and
the thresholds over `ℚ`; float rounding is idealised as exact. -/

def LA_DEADBAND : ℚ := 5 / 100

noncomputable def VEL_DAMP : ℝ := 3 / 10

/-- State touched by the linear-acceleration handler. -/
structure ImuState where
  lax : ℚ
  lay : ℚ
  laz : ℚ
  la_status : Nat
  vx : ℝ
  vy : ℝ
  vz : ℝ
  last_la_us : Nat

/-- The `uint32` difference `now - last_la_us` (line 293). -/
def deltaUs (last now : Nat) : Nat := (now + 2 ^ 32 - last % 2 ^ 32) % 2 ^ 32

/-- `dt` in seconds (line 293): microsecond delta scaled by `1e-6`. -/
def dtOf (last now : Nat) : ℚ := (deltaUs last now : ℚ) * (1 / 1000000)

/-- Per-axis velocity update (lines 296-315): integrate when the
acceleration magnitude exceeds the dead-band, otherwise decay by
`exp(-VEL_DAMP * dt)`. -/
noncomputable def axisV (a : ℚ) (v : ℝ) (dt : ℚ) : ℝ :=
  if LA_DEADBAND < |a| then v + (a : ℝ) * (dt : ℝ)
  else v * Real.exp (-VEL_DAMP * (dt : ℝ))

/-- The whole `SH2_LINEAR_ACCELERATION` case (lines 284-318): latch the
sample and status, integrate when `dt < 0.5`, always re-baseline
`last_la_us`. -/
noncomputable def laSample (st : ImuState) (ax ay az : ℚ) (status now : Nat) :
    ImuState :=
  let dt := dtOf st.last_la_us now
  { lax := ax, lay := ay, laz := az, la_status := status
    vx := if dt < 1 / 2 then axisV ax st.vx dt else st.vx
    vy := if dt < 1 / 2 then axisV ay st.vy dt else st.vy
    vz := if dt < 1 / 2 then axisV az st.vz dt else st.vz
    last_la_us := now }

/-- Iterated zero-acceleration samples arriving every `d` microseconds. -/
noncomputable def zeroIter (st : ImuState) (d : Nat) : Nat → ImuState
  | 0 => st
  | n + 1 =>
      let prev := zeroIter st d n
      laSample prev 0 0 0 prev.la_status (prev.last_la_us + d)

/-! ### Basic lemmas about the wire model -/

/-- Byte concatenation: `or`-ing a shifted value into a register holding
less than `2^n` is addition. -/
theorem lor_shift_eq_add : ∀ (n a b : Nat), a < 2 ^ n →
    a ||| (b <<< n) = a + 2 ^ n * b := by
  intro n
  induction n with
  | zero =>
    intro a b ha
    interval_cases a
    simp [Nat.shiftLeft_zero]
  | succ n ih =>
    intro a b ha
    have hd : Nat.bit a.bodd a.div2 = a := Nat.bit_decomp a
    have hq : a.div2 < 2 ^ n := by
      have h2 := Nat.bit_lt_two_pow_succ_iff (b := a.bodd) (x := a.div2) (n := n)
      rw [hd] at h2
      exact h2.mp ha
    have hs : b <<< (n + 1) = Nat.bit false (b <<< n) := by
      simp only [Nat.shiftLeft_eq, Nat.bit_val, Bool.toNat_false, pow_succ]
      ring
    calc a ||| (b <<< (n + 1))
        = Nat.bit a.bodd a.div2 ||| Nat.bit false (b <<< n) := by rw [hd, hs]
      _ = Nat.bit (a.bodd || false) (a.div2 ||| (b <<< n)) := Nat.lor_bit _ _ _ _
      _ = Nat.bit a.bodd (a.div2 + 2 ^ n * b) := by rw [ih _ b hq]; simp
      _ = a + 2 ^ (n + 1) * b := by
          conv_rhs => rw [← hd]
          simp only [Nat.bit_val, pow_succ]
          ring

/-- `orByte` on a register holding a byte reassembles the 16-bit value. -/
theorem orByte_eq_add (lo hi : Nat) (h : lo < 256) :
    orByte lo hi = lo + 256 * hi :=
  lor_shift_eq_add 8 lo hi h

/-- `orByte` of the two `putLE16` bytes of a `uint16` recovers it. -/
theorem orByte_putLE16 (v : Nat) (h : v < 65536) :
    orByte (v % 256) ((v >>> 8) % 256) = v := by
  rw [orByte_eq_add _ _ (Nat.mod_lt _ (by norm_num)), Nat.shiftRight_eq_div_pow]
  have h1 : v / 2 ^ 8 % 256 = v / 256 := by
    have : v / 2 ^ 8 < 256 := by omega
    omega
  rw [h1]
  omega

theorem run_nil (wsub : Nat → Nat → Nat) (st : NodeState) (now : Nat) :
    run wsub st now [] = (st, []) := rfl

theorem run_cons (wsub : Nat → Nat → Nat) (st : NodeState) (now b : Nat)
    (bs : List Nat) :
    run wsub st now (b :: bs) =
      ((run wsub (processOneByte wsub st b now).1 now bs).1,
       (processOneByte wsub st b now).2 ++
         (run wsub (processOneByte wsub st b now).1 now bs).2) := rfl

theorem run_append (wsub : Nat → Nat → Nat) (now : Nat) :
    ∀ (xs ys : List Nat) (st : NodeState),
    run wsub st now (xs ++ ys) =
      ((run wsub (run wsub st now xs).1 now ys).1,
       (run wsub st now xs).2 ++ (run wsub (run wsub st now xs).1 now ys).2) := by
  intro xs
  induction xs with
  | nil => intro ys st; simp [run_nil]
  | cons b bs ih =>
      intro ys st
      simp only [List.cons_append, run_cons, ih]
      simp [List.append_assoc]

theorem framesOf_nil : framesOf [] = [] := rfl

theorem framesOf_append (e1 e2 : List Ev) :
    framesOf (e1 ++ e2) = framesOf e1 ++ framesOf e2 :=
  List.filterMap_append _ _ _

theorem sendsOf_append (e1 e2 : List Ev) :
    sendsOf (e1 ++ e2) = sendsOf e1 ++ sendsOf e2 :=
  List.filterMap_append _ _ _

/-- The dispatcher only ever emits `send` events. -/
theorem handleMsg_frames (wsub : Nat → Nat → Nat) (st : NodeState) (now : Nat) :
    framesOf (handleMsg wsub st now).2 = [] := by
  unfold handleMsg respondIMU setHomeExplicit resetVelocity
  split <;> [skip; split] <;> split <;> simp_all [framesOf] <;> split <;> simp [framesOf]

/-- The dispatcher performs no buffer writes. -/
theorem handleMsg_writesOk (wsub : Nat → Nat → Nat) (st : NodeState) (now : Nat) :
    (handleMsg wsub st now).2.all writeOk = true := by
  unfold handleMsg respondIMU setHomeExplicit resetVelocity
  split <;> [skip; split] <;> split <;> simp_all [writeOk] <;> split <;> simp [writeOk]

/-! ### Buffer-safety invariant (claim C9) -/

/-- Invariant justifying buffer-index safety: whenever the parser is in the
payload state, the next write index is below the declared length, which is
itself within capacity. -/
def InvP (st : NodeState) : Prop :=
  st.ps = PS_PAYLOAD → st.payload_idx < st.pl_len ∧ st.pl_len ≤ MAX_PAYLOAD

theorem step_writesOk (wsub : Nat → Nat → Nat) (st : NodeState) (b now : Nat)
    (h : InvP st) :
    (processOneByte wsub st b now).2.all writeOk = true ∧
      InvP (processOneByte wsub st b now).1 := by
  cases hps : st.ps
  case PS_FIND_S1 =>
    simp only [processOneByte, hps]
    split <;> simp [InvP, hps]
  case PS_FIND_S2 =>
    simp only [processOneByte, hps]
    split <;> simp [InvP, hps]
  case PS_LEN0 => simp [processOneByte, hps, InvP]
  case PS_LEN1 => simp [processOneByte, hps, InvP]
  case PS_ID0 => simp [processOneByte, hps, InvP]
  case PS_ID1 => simp [processOneByte, hps, InvP]
  case PS_SRC => simp [processOneByte, hps, InvP]
  case PS_DST =>
    simp only [processOneByte, hps]
    split
    · simp [InvP]
    · split
      all_goals rename_i hlen
      all_goals simp_all [InvP, MAX_PAYLOAD]
      all_goals omega
  case PS_PAYLOAD =>
    have hidx := h hps
    simp only [MAX_PAYLOAD] at hidx
    simp only [processOneByte, hps]
    constructor
    · simp only [List.all_cons, List.all_nil, Bool.and_true, writeOk, MAX_PAYLOAD,
        decide_eq_true_eq]
      omega
    · intro hps2
      simp only at hps2
      split at hps2
      · exact absurd hps2 (by simp)
      · rename_i hlt
        simp only [MAX_PAYLOAD]
        omega
  case PS_CK0 => simp [processOneByte, hps, InvP]
  case PS_CK1 =>
    simp only [processOneByte, hps]
    split
    · refine ⟨?_, by simp [InvP, resetParser]⟩
      simp only [List.all_cons, Bool.and_eq_true]
      refine ⟨rfl, ?_⟩
      split
      · exact handleMsg_writesOk wsub st now
      · simp
    · simp [InvP, resetParser, writeOk]

theorem run_writesOk (wsub : Nat → Nat → Nat) (now : Nat) :
    ∀ (bs : List Nat) (st : NodeState), InvP st →
    (run wsub st now bs).2.all writeOk = true ∧ InvP (run wsub st now bs).1 := by
  intro bs
  induction bs with
  | nil => intro st h; simpa [run_nil] using h
  | cons b t ih =>
      intro st h
      have h1 := step_writesOk wsub st b now h
      have h2 := ih (processOneByte wsub st b now).1 h1.2
      rw [run_cons]
      simp only [List.all_append, Bool.and_eq_true]
      exact ⟨⟨h1.1, h2.1⟩, h2.2⟩

/-! ### Single-step characterisations of the parser (towards claim C1) -/

theorem step_S1 (wsub : Nat → Nat → Nat) (st : NodeState) (now : Nat)
    (h : st.ps = PS_FIND_S1) :
    processOneByte wsub st START1 now =
      ({ st with calc_ck := START1, ps := PS_FIND_S2 }, []) := by
  simp [processOneByte, h, START1]

theorem step_S2 (wsub : Nat → Nat → Nat) (st : NodeState) (now : Nat)
    (h : st.ps = PS_FIND_S2) :
    processOneByte wsub st START2 now =
      ({ st with calc_ck := (st.calc_ck + START2) % 65536, ps := PS_LEN0 }, []) := by
  simp [processOneByte, h, START2]

theorem step_LEN0 (wsub : Nat → Nat → Nat) (st : NodeState) (b now : Nat)
    (h : st.ps = PS_LEN0) (hb : b < 256) :
    processOneByte wsub st b now =
      ({ st with pl_len := b, calc_ck := (st.calc_ck + b) % 65536,
                 ps := PS_LEN1 }, []) := by
  simp [processOneByte, h, Nat.mod_eq_of_lt hb]

theorem step_LEN1 (wsub : Nat → Nat → Nat) (st : NodeState) (b now : Nat)
    (h : st.ps = PS_LEN1) (hb : b < 256) :
    processOneByte wsub st b now =
      ({ st with pl_len := orByte st.pl_len b,
                 calc_ck := (st.calc_ck + b) % 65536, ps := PS_ID0 }, []) := by
  simp [processOneByte, h, Nat.mod_eq_of_lt hb]

theorem step_ID0 (wsub : Nat → Nat → Nat) (st : NodeState) (b now : Nat)
    (h : st.ps = PS_ID0) (hb : b < 256) :
    processOneByte wsub st b now =
      ({ st with msg_id := b, calc_ck := (st.calc_ck + b) % 65536,
                 ps := PS_ID1 }, []) := by
  simp [processOneByte, h, Nat.mod_eq_of_lt hb]

theorem step_ID1 (wsub : Nat → Nat → Nat) (st : NodeState) (b now : Nat)
    (h : st.ps = PS_ID1) (hb : b < 256) :
    processOneByte wsub st b now =
      ({ st with msg_id := orByte st.msg_id b,
                 calc_ck := (st.calc_ck + b) % 65536, ps := PS_SRC }, []) := by
  simp [processOneByte, h, Nat.mod_eq_of_lt hb]

theorem step_SRC (wsub : Nat → Nat → Nat) (st : NodeState) (b now : Nat)
    (h : st.ps = PS_SRC) (hb : b < 256) :
    processOneByte wsub st b now =
      ({ st with src_id := b, calc_ck := (st.calc_ck + b) % 65536,
                 ps := PS_DST }, []) := by
  simp [processOneByte, h, Nat.mod_eq_of_lt hb]

theorem step_DST_ok (wsub : Nat → Nat → Nat) (st : NodeState) (b now : Nat)
    (h : st.ps = PS_DST) (hb : b < 256) (hlen : st.pl_len ≤ MAX_PAYLOAD) :
    processOneByte wsub st b now =
      ({ st with dst_id := b, calc_ck := (st.calc_ck + b) % 65536,
                 payload_idx := 0,
                 ps := if st.pl_len = 0 then PS_CK0 else PS_PAYLOAD }, []) := by
  simp only [processOneByte, h, Nat.mod_eq_of_lt hb]
  rw [if_neg (by omega)]

theorem step_CK0 (wsub : Nat → Nat → Nat) (st : NodeState) (b now : Nat)
    (h : st.ps = PS_CK0) (hb : b < 256) :
    processOneByte wsub st b now =
      ({ st with recv_ck := b, ps := PS_CK1 }, []) := by
  simp [processOneByte, h, Nat.mod_eq_of_lt hb]

theorem orByte_zero (lo : Nat) : orByte lo 0 = lo := by
  simp [orByte, Nat.shiftLeft_eq]

/-- Sequential stores `payload_buf[j] = p[0]`, `payload_buf[j+1] = p[1]`, ...
performed by the payload state. -/
def writeSeq (buf : Nat → Nat) (j : Nat) : List Nat → (Nat → Nat)
  | [] => buf
  | b :: t => writeSeq (Function.update buf j b) (j + 1) t

theorem writeSeq_lt : ∀ (p : List Nat) (buf : Nat → Nat) (j i : Nat), i < j →
    writeSeq buf j p i = buf i := by
  intro p
  induction p with
  | nil => intro buf j i _; rfl
  | cons b t ih =>
      intro buf j i hij
      have h1 : i < j + 1 := by omega
      rw [writeSeq, ih _ (j + 1) i h1, Function.update_noteq (by omega)]

theorem writeSeq_get : ∀ (p : List Nat) (buf : Nat → Nat) (j i : Nat),
    i < p.length → writeSeq buf j p (j + i) = p.getD i 0 := by
  intro p
  induction p with
  | nil => intro buf j i h; simp at h
  | cons b t ih =>
      intro buf j i h
      cases i with
      | zero =>
          simp only [Nat.add_zero, writeSeq]
          rw [writeSeq_lt t _ (j + 1) j (by omega), Function.update_same]
          rfl
      | succ i =>
          have h2 : j + (i + 1) = (j + 1) + i := by omega
          rw [writeSeq, h2, ih _ (j + 1) i (by simpa using h)]
          rfl

theorem writeSeq_readback (p : List Nat) (buf : Nat → Nat) :
    (List.range p.length).map (writeSeq buf 0 p) = p := by
  apply List.ext_getElem
  · simp
  · intro i h1 h2
    simp only [List.getElem_map, List.getElem_range]
    have h3 : i < p.length := by simpa using h2
    have h4 := writeSeq_get p buf 0 i h3
    rw [Nat.zero_add] at h4
    rw [h4, List.getD_eq_getElem _ _ h3]

/-- Running the parser over the payload bytes of a frame whose declared
length was accepted: stores each byte, accumulates the checksum, ends in
`PS_CK0`. -/
theorem run_payload (wsub : Nat → Nat → Nat) (now : Nat) :
    ∀ (p : List Nat) (st : NodeState), st.ps = PS_PAYLOAD →
    (∀ x ∈ p, x < 256) →
    st.payload_idx + p.length = st.pl_len → st.payload_idx < st.pl_len →
    (run wsub st now p).1 =
      { st with ps := PS_CK0, payload_idx := st.pl_len,
                buf := writeSeq st.buf st.payload_idx p,
                calc_ck := (st.calc_ck + p.foldr (· + ·) 0) % 65536 } ∧
      framesOf (run wsub st now p).2 = [] := by
  intro p
  induction p with
  | nil =>
      intro st _ _ hlen hlt
      simp only [List.length_nil] at hlen
      omega
  | cons b t ih =>
      intro st hps hb hlen hlt
      have hb1 : b < 256 := hb b (by simp)
      have hstep : processOneByte wsub st b now =
          ({ st with buf := Function.update st.buf st.payload_idx b,
                     payload_idx := st.payload_idx + 1,
                     calc_ck := (st.calc_ck + b) % 65536,
                     ps := if st.pl_len ≤ st.payload_idx + 1 then PS_CK0
                           else PS_PAYLOAD },
           [Ev.write st.payload_idx b]) := by
        simp [processOneByte, hps, Nat.mod_eq_of_lt hb1]
      by_cases htne : t = []
      · subst htne
        simp only [List.length_cons, List.length_nil] at hlen
        have hfin : st.pl_len ≤ st.payload_idx + 1 := by omega
        rw [run_cons, hstep]
        simp only [run_nil, if_pos hfin]
        refine ⟨?_, by simp [framesOf]⟩
        have h5 : st.payload_idx + 1 = st.pl_len := by omega
        have h6 : (st.calc_ck + b) % 65536 =
            (st.calc_ck + List.foldr (· + ·) 0 [b]) % 65536 := by
          simp
        rw [h5]
        rfl
      · have htlen : 1 ≤ t.length := by
          cases t with
          | nil => exact absurd rfl htne
          | cons _ _ => simp
        simp only [List.length_cons] at hlen
        have hnfin : ¬ st.pl_len ≤ st.payload_idx + 1 := by omega
        rw [run_cons, hstep]
        simp only [if_neg hnfin]
        have hih := ih { st with buf := Function.update st.buf st.payload_idx b,
                                 payload_idx := st.payload_idx + 1,
                                 calc_ck := (st.calc_ck + b) % 65536,
                                 ps := PS_PAYLOAD }
          rfl (fun x hx => hb x (by simp [hx]))
          (by simp only; omega) (by simp only; omega)
        simp only at hih
        refine ⟨?_, ?_⟩
        · rw [hih.1]
          have hck : ((st.calc_ck + b) % 65536 + List.foldr (· + ·) 0 t) % 65536 =
              (st.calc_ck + List.foldr (· + ·) 0 (b :: t)) % 65536 := by
            simp only [List.foldr_cons]
            omega
          rw [hck]
          rfl
        · rw [framesOf_append, hih.2]
          simp [framesOf]

/-- The checksum byte value carried by an encoded frame, in flattened form. -/
def encCk (msgId src dst : Nat) (payload : List Nat) : Nat :=
  (148 + payload.length + msgId % 256 + msgId / 256 + src + dst +
    payload.foldr (· + ·) 0) % 65536

/-- Canonical byte-list form of an encoded frame with in-range fields. -/
theorem sendMsgBytes_eq (msgId src dst : Nat) (payload : List Nat)
    (hm : msgId < 65536) (hs : src < 256) (hd : dst < 256)
    (hl : payload.length ≤ 128) :
    sendMsgBytes msgId src dst payload =
      [START1, START2, payload.length, 0, msgId % 256, msgId / 256, src, dst] ++
        payload ++
        [encCk msgId src dst payload % 256, encCk msgId src dst payload / 256] := by
  have h1 : payload.length % 65536 = payload.length := by omega
  have h2 : msgId % 65536 = msgId := by omega
  have h3 : src % 256 = src := by omega
  have h4 : dst % 256 = dst := by omega
  unfold sendMsgBytes putLE16 checksum16
  simp only [Nat.shiftRight_eq_div_pow, Nat.reducePow, h1, h2, h3, h4]
  have h5 : payload.length % 256 = payload.length := by omega
  have h6 : payload.length / 256 % 256 = 0 := by omega
  have h7 : msgId / 256 % 256 = msgId / 256 := by omega
  simp only [h5, h6, h7, START1, START2, List.cons_append, List.nil_append,
    List.foldr_cons, List.foldr_nil, List.cons.injEq, List.append_cancel_left_eq,
    true_and]
  unfold encCk
  refine ⟨?_, ?_, trivial⟩ <;> omega

/-- Running the parser from seek state over the eight header bytes of an
accepted frame (declared length within capacity). -/
theorem run_hdr8 (wsub : Nat → Nat → Nat) (now : Nat) (st : NodeState)
    (h : st.ps = PS_FIND_S1) (l i0 i1 s d : Nat)
    (hlv : l ≤ 128) (hi0 : i0 < 256) (hi1 : i1 < 256)
    (hsv : s < 256) (hdv : d < 256) :
    run wsub st now [START1, START2, l, 0, i0, i1, s, d] =
      ({ st with pl_len := l, msg_id := i0 + 256 * i1, src_id := s, dst_id := d,
                 payload_idx := 0,
                 calc_ck := (148 + l + i0 + i1 + s + d) % 65536,
                 ps := if l = 0 then PS_CK0 else PS_PAYLOAD }, []) := by
  rw [run_cons, step_S1 wsub st now h]
  simp only
  rw [run_cons, step_S2 wsub _ now rfl]
  simp only
  rw [run_cons, step_LEN0 wsub _ l now rfl (by omega)]
  simp only
  rw [run_cons, step_LEN1 wsub _ 0 now rfl (by omega)]
  simp only
  rw [run_cons, step_ID0 wsub _ i0 now rfl (by omega)]
  simp only
  rw [run_cons, step_ID1 wsub _ i1 now rfl hi1]
  simp only
  rw [run_cons, step_SRC wsub _ s now rfl hsv]
  simp only
  rw [run_cons, step_DST_ok wsub _ d now rfl hdv
    (by simp only [MAX_PAYLOAD, orByte_zero]; omega)]
  simp only [run_nil, List.append_nil, List.nil_append]
  have hck : ((((((((START1 + START2) % 65536 + l) % 65536 + 0) % 65536 + i0) % 65536
      + i1) % 65536 + s) % 65536 + d) % 65536) = (148 + l + i0 + i1 + s + d) % 65536 := by
    simp only [START1, START2]
    omega
  have hor0 : orByte l 0 = l := orByte_zero l
  have hor1 : orByte i0 i1 = i0 + 256 * i1 := orByte_eq_add i0 i1 hi0
  simp only [hor0, hor1, START1, START2]
  simp only [START1, START2] at hck
  rw [hck]

/-- The accepting checksum step: second checksum byte matches, the frame is
dispatched (subject to the destination filter) and the parser resets. -/
theorem step_CK1_match (wsub : Nat → Nat → Nat) (st : NodeState) (b now : Nat)
    (h : st.ps = PS_CK1) (hb : b < 256)
    (hmt : orByte st.recv_ck b = st.calc_ck) :
    processOneByte wsub st b now =
      (resetParser (if st.dst_id = DEVICE_ID ∨ st.dst_id = 255 then
          (handleMsg wsub st now).1 else st),
       Ev.frame ⟨st.pl_len, st.msg_id, st.src_id, st.dst_id, payloadList st⟩ ::
         (if st.dst_id = DEVICE_ID ∨ st.dst_id = 255 then
           (handleMsg wsub st now).2 else [])) := by
  simp only [processOneByte, h, Nat.mod_eq_of_lt hb, hmt, if_pos]
  split <;> simp

theorem framesOf_cons_frame (f : Frame) (evs : List Ev) :
    framesOf (Ev.frame f :: evs) = f :: framesOf evs := by
  simp [framesOf]

theorem framesOf_dispatchIf (wsub : Nat → Nat → Nat) (st : NodeState) (now : Nat)
    (c : Prop) [Decidable c] :
    framesOf (if c then (handleMsg wsub st now).2 else []) = [] := by
  split
  · exact handleMsg_frames _ _ _
  · rfl

theorem resetParser_ps (st : NodeState) : (resetParser st).ps = PS_FIND_S1 := rfl

/-- Core round-trip lemma: from any state whose parser is seeking, the byte
sequence produced by `sendMsg` parses to exactly one completed
checksum-valid frame carrying the encoded fields, and the parser is back in
`PS_FIND_S1` afterwards. -/
theorem parse_encode_from_seek (wsub : Nat → Nat → Nat) (now : Nat)
    (msgId src dst : Nat) (payload : List Nat) (st : NodeState)
    (h : st.ps = PS_FIND_S1) (hm : msgId < 65536) (hs : src < 256)
    (hd : dst < 256) (hp : ∀ x ∈ payload, x < 256) (hl : payload.length ≤ 128) :
    framesOf (run wsub st now (sendMsgBytes msgId src dst payload)).2 =
        [⟨payload.length, msgId, src, dst, payload⟩] ∧
      (run wsub st now (sendMsgBytes msgId src dst payload)).1.ps = PS_FIND_S1 := by
  have hi0 : msgId % 256 < 256 := by omega
  have hi1 : msgId / 256 < 256 := by omega
  have hmsg : msgId % 256 + 256 * (msgId / 256) = msgId := by omega
  have hcklt : encCk msgId src dst payload < 65536 := by
    unfold encCk
    omega
  have hc0 : encCk msgId src dst payload % 256 < 256 := by omega
  have hc1 : encCk msgId src dst payload / 256 < 256 := by omega
  rw [sendMsgBytes_eq msgId src dst payload hm hs hd hl]
  rw [show ([START1, START2, payload.length, 0, msgId % 256, msgId / 256, src, dst] ++
        payload ++
        [encCk msgId src dst payload % 256, encCk msgId src dst payload / 256]) =
      ([START1, START2, payload.length, 0, msgId % 256, msgId / 256, src, dst] ++
        (payload ++
        [encCk msgId src dst payload % 256, encCk msgId src dst payload / 256]))
    from by simp]
  rw [run_append]
  rw [run_hdr8 wsub now st h payload.length (msgId % 256) (msgId / 256) src dst
      hl hi0 hi1 hs hd]
  simp only [framesOf_append, framesOf_nil, List.nil_append]
  by_cases hpl : payload.length = 0
  · have hpe : payload = [] := List.length_eq_zero.mp hpl
    subst hpe
    simp only [List.length_nil, List.nil_append, reduceIte]
    rw [run_cons, step_CK0 wsub _ _ now rfl hc0]
    simp only
    have hrec : orByte (encCk msgId src dst [] % 256) (encCk msgId src dst [] / 256) =
        (148 + 0 + msgId % 256 + msgId / 256 + src + dst) % 65536 := by
      rw [orByte_eq_add _ _ hc0]
      unfold encCk
      simp only [List.length_nil, List.foldr_nil]
      omega
    rw [run_cons, step_CK1_match wsub _ _ now rfl hc1 (by exact hrec)]
    simp only [run_nil, List.append_nil]
    refine ⟨?_, resetParser_ps _⟩
    rw [framesOf_append, framesOf_cons_frame, framesOf_dispatchIf, framesOf_nil]
    simp only [List.nil_append, List.cons.injEq, Frame.mk.injEq, hmsg, payloadList,
      List.range_zero, List.map_nil, and_self, and_true, true_and]
  · have hAps : (if payload.length = 0 then PS_CK0 else PS_PAYLOAD) = PS_PAYLOAD :=
      if_neg hpl
    simp only [hAps]
    rw [run_append]
    obtain ⟨hB, hBf⟩ := run_payload wsub now payload
      { st with pl_len := payload.length,
                msg_id := msgId % 256 + 256 * (msgId / 256),
                src_id := src, dst_id := dst, payload_idx := 0,
                calc_ck := (148 + payload.length + msgId % 256 + msgId / 256 + src + dst) % 65536,
                ps := PS_PAYLOAD }
      rfl hp (by simp only; omega) (by simp only; omega)
    rw [hB, framesOf_append, hBf]
    simp only [List.nil_append]
    rw [run_cons, step_CK0 wsub _ _ now rfl hc0]
    simp only
    have hrec : orByte (encCk msgId src dst payload % 256) (encCk msgId src dst payload / 256) =
        ((148 + payload.length + msgId % 256 + msgId / 256 + src + dst) % 65536 +
          payload.foldr (· + ·) 0) % 65536 := by
      rw [orByte_eq_add _ _ hc0]
      unfold encCk
      omega
    rw [run_cons, step_CK1_match wsub _ _ now rfl hc1 (by exact hrec)]
    simp only [run_nil, List.append_nil]
    refine ⟨?_, resetParser_ps _⟩
    rw [framesOf_append, framesOf_cons_frame, framesOf_dispatchIf, framesOf_nil]
    simp only [List.nil_append, List.cons.injEq, Frame.mk.injEq, hmsg, payloadList,
      and_self, and_true, true_and]
    exact writeSeq_readback payload st.buf

theorem sendsOf_cons_frame (f : Frame) (evs : List Ev) :
    sendsOf (Ev.frame f :: evs) = sendsOf evs := by
  simp [sendsOf]

/-! ### Claim theorems: framing round-trip and resynchronisation -/

/-- C1: Framing round-trip.  For every messageId (`uint16`), source and
destination byte, and payload of byte values with length at most 128,
feeding the frame produced by `sendMsg` byte-by-byte into the parser
starting in the seeking state yields exactly one completed, checksum-valid
frame whose length, messageId, source, destination and payload equal the
encoded inputs, and leaves the parser seeking again. -/
theorem C1_framing_round_trip (wsub : Nat → Nat → Nat) (now : Nat)
    (msgId src dst : Nat) (payload : List Nat) (st : NodeState)
    (h : st.ps = PS_FIND_S1) (hm : msgId < 65536) (hs : src < 256)
    (hd : dst < 256) (hp : ∀ x ∈ payload, x < 256) (hl : payload.length ≤ 128) :
    framesOf (run wsub st now (sendMsgBytes msgId src dst payload)).2 =
        [⟨payload.length, msgId, src, dst, payload⟩] ∧
      (run wsub st now (sendMsgBytes msgId src dst payload)).1.ps = PS_FIND_S1 :=
  parse_encode_from_seek wsub now msgId src dst payload st h hm hs hd hp hl

theorem C1_framing_round_trip_witness :
    (MSG_SET_HOME < 65536 ∧ 5 < 256 ∧ 1 < 256 ∧
      (∀ x ∈ [10, 20, 30], x < 256) ∧ List.length [10, 20, 30] ≤ 128) ∧
    framesOf (run (fun _ _ => 0) initState 7
        (sendMsgBytes MSG_SET_HOME 5 1 [10, 20, 30])).2 =
        [⟨3, MSG_SET_HOME, 5, 1, [10, 20, 30]⟩] ∧
      (run (fun _ _ => 0) initState 7
        (sendMsgBytes MSG_SET_HOME 5 1 [10, 20, 30])).1.ps = PS_FIND_S1 :=
  ⟨⟨by decide, by decide, by decide, by decide, by decide⟩,
   C1_framing_round_trip (fun _ _ => 0) 7 MSG_SET_HOME 5 1 [10, 20, 30]
     initState rfl (by decide) (by decide) (by decide) (by decide) (by decide)⟩

/-- C2 counterexample: the single corrupted byte `'B'` before a valid
GetTelemetry frame leaves the parser in `PS_FIND_S2`; the frame's own
leading `'B'` is consumed by the failed marker-2 check (line 184 returns to
`PS_FIND_S1` without re-testing the byte against marker 1), so the valid
frame is not parsed at all: zero frames complete, not exactly one. -/
theorem C2_resync_counterexample :
    framesOf (run (fun _ _ => 0) initState 0
        ([START1] ++ sendMsgBytes MSG_GET_IMU 0 1 [])).2 = [] ∧
      framesOf (run (fun _ _ => 0) initState 0
        ([START1] ++ sendMsgBytes MSG_GET_IMU 0 1 [])).2 ≠
        [⟨0, MSG_GET_IMU, 0, 1, []⟩] := by
  constructor
  · decide
  · decide

/-- C2 (amended): resynchronisation holds for every corrupted prefix that
leaves the parser in the seeking state (in particular any prefix the parser
has fully abandoned): appending a valid encoded frame then yields exactly
one additional completed frame, equal to the encoded one.  A prefix ending
with a lone first marker byte falsifies the unrestricted claim. -/
theorem C2_resync_amended (wsub : Nat → Nat → Nat) (now : Nat)
    (s : List Nat) (msgId src dst : Nat) (payload : List Nat)
    (hm : msgId < 65536) (hs : src < 256) (hd : dst < 256)
    (hp : ∀ x ∈ payload, x < 256) (hl : payload.length ≤ 128)
    (hseek : (run wsub initState now s).1.ps = PS_FIND_S1) :
    framesOf (run wsub initState now (s ++ sendMsgBytes msgId src dst payload)).2 =
      framesOf (run wsub initState now s).2 ++
        [⟨payload.length, msgId, src, dst, payload⟩] := by
  rw [run_append, framesOf_append]
  rw [(parse_encode_from_seek wsub now msgId src dst payload
    (run wsub initState now s).1 hseek hm hs hd hp hl).1]

theorem C2_resync_amended_witness :
    ((run (fun _ _ => 0) initState 0 [START1, 9, START2]).1.ps = PS_FIND_S1 ∧
      MSG_GET_IMU < 65536) ∧
    framesOf (run (fun _ _ => 0) initState 0
        ([START1, 9, START2] ++ sendMsgBytes MSG_GET_IMU 0 1 [])).2 =
      framesOf (run (fun _ _ => 0) initState 0 [START1, 9, START2]).2 ++
        [⟨0, MSG_GET_IMU, 0, 1, []⟩] :=
  ⟨⟨by decide, by decide⟩,
   C2_resync_amended (fun _ _ => 0) 0 [START1, 9, START2] MSG_GET_IMU 0 1 []
     (by decide) (by decide) (by decide) (by decide) (by decide) (by decide)⟩

/-! ### Claim theorem: bounded payload buffering -/

/-- C9: Bounded payload buffering.  (1) On every input byte stream from the
initial state, every store into `payload_buf` has index below 128.  (2) A
frame whose declared length exceeds 128 is aborted right after the
destination byte: the parser returns to seeking and that step neither
buffers a byte nor emits any frame, error or NACK. -/
theorem C9_bounded_buffering :
    (∀ (wsub : Nat → Nat → Nat) (now : Nat) (bs : List Nat),
        (run wsub initState now bs).2.all writeOk = true) ∧
      (∀ (wsub : Nat → Nat → Nat) (st : NodeState) (b now : Nat),
        st.ps = PS_DST → MAX_PAYLOAD < st.pl_len →
          (processOneByte wsub st b now).1.ps = PS_FIND_S1 ∧
            (processOneByte wsub st b now).2 = []) := by
  constructor
  · intro wsub now bs
    refine (run_writesOk wsub now bs initState ?_).1
    intro hps
    exact absurd hps (by decide)
  · intro wsub st b now hps hlen
    constructor
    · simp [processOneByte, hps, hlen]
    · simp [processOneByte, hps, hlen]

theorem C9_bounded_buffering_witness :
    ((run (fun _ _ => 0) initState 0
        (sendMsgBytes MSG_SET_HOME 0 1 [1, 2, 3])).2.all writeOk = true) ∧
    ({ initState with ps := PS_DST, pl_len := 200 } : NodeState).ps = PS_DST ∧
    MAX_PAYLOAD < ({ initState with ps := PS_DST, pl_len := 200 } : NodeState).pl_len ∧
    (processOneByte (fun _ _ => 0) { initState with ps := PS_DST, pl_len := 200 }
        9 0).1.ps = PS_FIND_S1 ∧
      (processOneByte (fun _ _ => 0) { initState with ps := PS_DST, pl_len := 200 }
        9 0).2 = [] :=
  ⟨C9_bounded_buffering.1 (fun _ _ => 0) 0 (sendMsgBytes MSG_SET_HOME 0 1 [1, 2, 3]),
   rfl, by decide,
   (C9_bounded_buffering.2 (fun _ _ => 0) _ 9 0 rfl (by decide)).1,
   (C9_bounded_buffering.2 (fun _ _ => 0) _ 9 0 rfl (by decide)).2⟩

/-! ### Claim theorems: response addressing and destination filtering -/

/-- Destinations of the frames the dispatch switch emits: the requester's
declared source everywhere except the two helpers `setHomeExplicit` and
`resetVelocity`, which hard-code `HOST_ID`. -/
theorem handleMsg_send_addr (wsub : Nat → Nat → Nat) (st : NodeState)
    (now : Nat) (e : Send) (he : e ∈ sendsOf (handleMsg wsub st now).2) :
    e.src = DEVICE_ID ∧
      e.dst = if (st.msg_id = MSG_SET_HOME ∧ st.pl_len ≠ 0) ∨
                 (st.msg_id = MSG_RESET_VEL ∧ st.pl_len = 0)
              then HOST_ID else st.src_id := by
  unfold handleMsg respondIMU setHomeExplicit resetVelocity at he
  split_ifs at he with h1 h2 h3 h4 h5 h6 <;>
    simp only [sendsOf, List.filterMap_cons, List.filterMap_nil,
      List.mem_singleton] at he <;>
    subst he <;>
    simp_all [MSG_GET_IMU, MSG_SET_HOME, MSG_RESET_VEL]

/-- C3 (amended): every response the node emits while finishing a frame has
source `DEVICE_ID`.  Its destination is the request's declared source in
every case - including the Malformed NACK of a checksum mismatch - EXCEPT
for the ACK / NACK emitted by `setHomeExplicit` (SetHome with a non-zero
payload) and the ACK of `resetVelocity`, which go to the fixed host
identifier `HOST_ID = 0`.  The first conjunct states this exactly at the
final checksum byte of any frame; the second characterises the dispatch
switch alone. -/
theorem C3_response_addressing_amended :
    (∀ (wsub : Nat → Nat → Nat) (st : NodeState) (b now : Nat),
        st.ps = PS_CK1 → ∀ e ∈ sendsOf (processOneByte wsub st b now).2,
          e.src = DEVICE_ID ∧
            e.dst = if orByte st.recv_ck (b % 256) = st.calc_ck ∧
                       ((st.msg_id = MSG_SET_HOME ∧ st.pl_len ≠ 0) ∨
                        (st.msg_id = MSG_RESET_VEL ∧ st.pl_len = 0))
                    then HOST_ID else st.src_id) ∧
      (∀ (wsub : Nat → Nat → Nat) (st : NodeState) (now : Nat),
        ∀ e ∈ sendsOf (handleMsg wsub st now).2,
          e.src = DEVICE_ID ∧
            e.dst = if (st.msg_id = MSG_SET_HOME ∧ st.pl_len ≠ 0) ∨
                       (st.msg_id = MSG_RESET_VEL ∧ st.pl_len = 0)
                    then HOST_ID else st.src_id) := by
  constructor
  · intro wsub st b now h e he
    simp only [processOneByte, h] at he
    split at he
    · rename_i hmt
      rw [sendsOf_cons_frame] at he
      split at he
      · have h2 := handleMsg_send_addr wsub st now e he
        refine ⟨h2.1, ?_⟩
        rw [h2.2]
        simp only [hmt, eq_self_iff_true, true_and]
      · simp [sendsOf] at he
    · rename_i hmt
      simp only [sendsOf, List.filterMap_cons, List.filterMap_nil,
        List.mem_singleton] at he
      subst he
      refine ⟨rfl, ?_⟩
      rw [if_neg (fun hc => hmt hc.1)]
  · exact handleMsg_send_addr

/-- Concrete state at the final checksum byte of a GetTelemetry request
declaring source 5 (for the C3 witness). -/
def c3StA : NodeState :=
  { initState with ps := PS_CK1, msg_id := MSG_GET_IMU, src_id := 5 }

/-- Concrete dispatch state of a 12-byte SetHome request declaring source 5
(for the C3 witness). -/
def c3StB : NodeState :=
  { initState with msg_id := MSG_SET_HOME, pl_len := 12, src_id := 5 }

/-- Concrete state at the final checksum byte of a frame whose checksum
will NOT match (`orByte 0 0 = 0 ≠ 55`), declaring source 9
(for the C3 witness's Malformed-NACK case). -/
def c3StC : NodeState :=
  { initState with ps := PS_CK1, src_id := 9, calc_ck := 55 }

theorem C3_response_addressing_witness :
    (c3StA.ps = PS_CK1 ∧ c3StC.ps = PS_CK1) ∧
    (∀ e ∈ sendsOf (processOneByte (fun _ _ => 0) c3StA 0 0).2,
      e.src = DEVICE_ID ∧
        e.dst = if orByte c3StA.recv_ck (0 % 256) = c3StA.calc_ck ∧
                   ((c3StA.msg_id = MSG_SET_HOME ∧ c3StA.pl_len ≠ 0) ∨
                    (c3StA.msg_id = MSG_RESET_VEL ∧ c3StA.pl_len = 0))
                then HOST_ID else c3StA.src_id) ∧
    (∀ e ∈ sendsOf (processOneByte (fun _ _ => 0) c3StC 0 0).2,
      e.src = DEVICE_ID ∧
        e.dst = if orByte c3StC.recv_ck (0 % 256) = c3StC.calc_ck ∧
                   ((c3StC.msg_id = MSG_SET_HOME ∧ c3StC.pl_len ≠ 0) ∨
                    (c3StC.msg_id = MSG_RESET_VEL ∧ c3StC.pl_len = 0))
                then HOST_ID else c3StC.src_id) ∧
    (∀ e ∈ sendsOf (handleMsg (fun _ _ => 0) c3StB 0).2,
      e.src = DEVICE_ID ∧
        e.dst = if (c3StB.msg_id = MSG_SET_HOME ∧ c3StB.pl_len ≠ 0) ∨
                   (c3StB.msg_id = MSG_RESET_VEL ∧ c3StB.pl_len = 0)
                then HOST_ID else c3StB.src_id) :=
  ⟨⟨rfl, rfl⟩,
   C3_response_addressing_amended.1 (fun _ _ => 0) c3StA 0 0 rfl,
   C3_response_addressing_amended.1 (fun _ _ => 0) c3StC 0 0 rfl,
   C3_response_addressing_amended.2 (fun _ _ => 0) c3StB 0⟩

/-- C3 counterexample: a checksum-valid SetHome request with a 12-byte
payload declaring source 5 is answered with an ACK whose destination is the
fixed host identifier 0, not the requester's source 5. -/
theorem C3_response_addressing_counterexample :
    sendsOf (run (fun _ _ => 0) initState 0
        (sendMsgBytes MSG_SET_HOME 5 1
          [0, 0, 0, 0, 0, 0, 0, 0, 0, 0, 0, 0])).2 =
      [⟨MSG_ACK, DEVICE_ID, HOST_ID, []⟩] ∧ HOST_ID ≠ 5 := by
  constructor
  · decide
  · decide

/-- C7 (amended): a completed checksum-VALID frame whose destination is
neither this node nor broadcast is dropped with no serial output at all;
but a checksum-INVALID frame triggers a Malformed NACK regardless of its
destination byte (see the counterexample). -/
theorem C7_destination_filter_amended (wsub : Nat → Nat → Nat)
    (st : NodeState) (b now : Nat) (h : st.ps = PS_CK1)
    (hck : orByte st.recv_ck (b % 256) = st.calc_ck)
    (hdev : st.dst_id ≠ DEVICE_ID) (hbc : st.dst_id ≠ 255) :
    sendsOf (processOneByte wsub st b now).2 = [] := by
  simp only [processOneByte, h, hck, if_pos]
  rw [if_neg (by simp [hdev, hbc])]
  simp [sendsOf]

/-- Concrete state at the final checksum byte of a matching-checksum frame
addressed to node 7 (for the C7 witness). -/
def c7St : NodeState := { initState with ps := PS_CK1, dst_id := 7 }

theorem C7_destination_filter_witness :
    (c7St.ps = PS_CK1 ∧ orByte c7St.recv_ck (0 % 256) = c7St.calc_ck ∧
      c7St.dst_id ≠ DEVICE_ID ∧ c7St.dst_id ≠ 255) ∧
    sendsOf (processOneByte (fun _ _ => 0) c7St 0 0).2 = [] :=
  ⟨⟨rfl, by decide, by decide, by decide⟩,
   C7_destination_filter_amended (fun _ _ => 0) c7St 0 0 rfl (by decide)
     (by decide) (by decide)⟩

/-- C7 counterexample: a frame addressed to node 5 (neither `DEVICE_ID` nor
broadcast) whose checksum does NOT verify is answered with a Malformed NACK
- serial output is emitted for a foreign-destination frame, refuting the
claim's clause that nothing is emitted regardless of checksum validity. -/
theorem C7_destination_filter_counterexample :
    sendsOf (run (fun _ _ => 0) initState 0
        [START1, START2, 0, 0, 1, 1, 0, 5, 0, 0]).2 =
      [⟨MSG_NACK, DEVICE_ID, 0, [ERR_MALFORMED]⟩] ∧
    (5 : Nat) ≠ DEVICE_ID ∧ (5 : Nat) ≠ 255 := by
  refine ⟨by decide, by decide, by decide⟩

/-! ### Claim theorems: telemetry response layout -/

/-- C4 counterexample: the telemetry response to a valid zero-length
GetTelemetry request carries a 42-byte payload
(4 + 1 + 1 + 9 * 4), not 36 bytes as claimed. -/
theorem C4_telemetry_length_counterexample :
    (sendsOf (run (fun _ _ => 0) initState 0
        (sendMsgBytes MSG_GET_IMU 0 1 [])).2).map (fun s => s.payload.length) =
      [42] ∧ (42 : Nat) ≠ 36 := by
  constructor
  · decide
  · decide

/-- C4 (amended): the payload emitted for a valid zero-length GetTelemetry
request is exactly 42 bytes: little-endian `u32` timestamp at offsets 0-3,
`u8` orientation status at 4, `u8` motion status at 5, then nine
little-endian `f32` bit patterns (roll, pitch, yaw, vx, vy, vz, ax, ay, az)
at offsets `6 + 4*j`. -/
theorem C4_telemetry_layout_amended (wsub : Nat → Nat → Nat) (st : NodeState)
    (now : Nat) (h1 : st.msg_id = MSG_GET_IMU) (h2 : st.pl_len = 0) :
    (handleMsg wsub st now).2 =
      [Ev.send ⟨MSG_RESP_IMU, DEVICE_ID, st.src_id,
        telemPayload now st.rv_status st.la_status
          (if st.homeSet then wsub st.rollBits st.homeRollBits else st.rollBits)
          (if st.homeSet then wsub st.pitchBits st.homePitchBits else st.pitchBits)
          (if st.homeSet then wsub st.yawBits st.homeYawBits else st.yawBits)
          st.vxBits st.vyBits st.vzBits st.laxBits st.layBits st.lazBits⟩] ∧
    ∀ t rv la r p y vx vy vz ax ay az : Nat,
      (telemPayload t rv la r p y vx vy vz ax ay az).length = 42 ∧
      (∀ i, i < 4 →
        (telemPayload t rv la r p y vx vy vz ax ay az).getD i 999 =
          t / 256 ^ i % 256) ∧
      (telemPayload t rv la r p y vx vy vz ax ay az).getD 4 999 = rv % 256 ∧
      (telemPayload t rv la r p y vx vy vz ax ay az).getD 5 999 = la % 256 ∧
      (∀ j i, j < 9 → i < 4 →
        (telemPayload t rv la r p y vx vy vz ax ay az).getD (6 + 4 * j + i) 999 =
          [r, p, y, vx, vy, vz, ax, ay, az].getD j 0 / 256 ^ i % 256) := by
  constructor
  · simp [handleMsg, respondIMU, h1, h2]
  · intro t rv la r p y vx vy vz ax ay az
    refine ⟨?_, ?_, ?_, ?_, ?_⟩
    · simp [telemPayload, putLE32]
    · intro i hi
      interval_cases i <;>
        simp [telemPayload, putLE32, Nat.shiftRight_eq_div_pow]
    · simp [telemPayload, putLE32]
    · simp [telemPayload, putLE32]
    · intro j i hj hi
      interval_cases j <;> interval_cases i <;>
        simp [telemPayload, putLE32, Nat.shiftRight_eq_div_pow]

/-- Concrete dispatch state of a valid zero-length GetTelemetry request
(for the C4 witness). -/
def c4St : NodeState := { initState with msg_id := MSG_GET_IMU, src_id := 5 }

theorem C4_telemetry_layout_witness :
    (c4St.msg_id = MSG_GET_IMU ∧ c4St.pl_len = 0) ∧
    ((handleMsg (fun _ _ => 0) c4St 3).2 =
      [Ev.send ⟨MSG_RESP_IMU, DEVICE_ID, c4St.src_id,
        telemPayload 3 c4St.rv_status c4St.la_status
          (if c4St.homeSet then (fun _ _ => 0) c4St.rollBits c4St.homeRollBits
           else c4St.rollBits)
          (if c4St.homeSet then (fun _ _ => 0) c4St.pitchBits c4St.homePitchBits
           else c4St.pitchBits)
          (if c4St.homeSet then (fun _ _ => 0) c4St.yawBits c4St.homeYawBits
           else c4St.yawBits)
          c4St.vxBits c4St.vyBits c4St.vzBits
          c4St.laxBits c4St.layBits c4St.lazBits⟩] ∧
    ∀ t rv la r p y vx vy vz ax ay az : Nat,
      (telemPayload t rv la r p y vx vy vz ax ay az).length = 42 ∧
      (∀ i, i < 4 →
        (telemPayload t rv la r p y vx vy vz ax ay az).getD i 999 =
          t / 256 ^ i % 256) ∧
      (telemPayload t rv la r p y vx vy vz ax ay az).getD 4 999 = rv % 256 ∧
      (telemPayload t rv la r p y vx vy vz ax ay az).getD 5 999 = la % 256 ∧
      (∀ j i, j < 9 → i < 4 →
        (telemPayload t rv la r p y vx vy vz ax ay az).getD (6 + 4 * j + i) 999 =
          [r, p, y, vx, vy, vz, ax, ay, az].getD j 0 / 256 ^ i % 256)) :=
  ⟨⟨rfl, rfl⟩, C4_telemetry_layout_amended (fun _ _ => 0) c4St 3 rfl rfl⟩

/-! ### Claim theorems: home-relative angle wrapping -/

theorem wrapSub_le (x : ℚ) : wrapSub x ≤ 180 := by
  induction x using wrapSub.induct with
  | case1 x h ih =>
      rw [wrapSub]
      rw [dif_pos h]
      exact ih
  | case2 x h =>
      rw [wrapSub]
      rw [dif_neg h]
      linarith

theorem wrapSub_gt (x : ℚ) (hx : -180 < x) : -180 < wrapSub x := by
  induction x using wrapSub.induct with
  | case1 x h ih =>
      rw [wrapSub, dif_pos h]
      exact ih (by linarith)
  | case2 x h =>
      rw [wrapSub, dif_neg h]
      exact hx

theorem wrapAdd_ge (x : ℚ) : -180 ≤ wrapAdd x := by
  induction x using wrapAdd.induct with
  | case1 x h ih =>
      rw [wrapAdd, dif_pos h]
      exact ih
  | case2 x h =>
      rw [wrapAdd, dif_neg h]
      linarith

theorem wrapAdd_le (x : ℚ) (hx : x ≤ 180) : wrapAdd x ≤ 180 := by
  induction x using wrapAdd.induct with
  | case1 x h ih =>
      rw [wrapAdd, dif_pos h]
      exact ih (by linarith)
  | case2 x h =>
      rw [wrapAdd, dif_neg h]
      exact hx

/-- `wrap180` lands in the CLOSED interval `[-180, 180]`; the left end is
attained (see the counterexample), so `(-180, 180]` is not an invariant. -/
theorem wrap180_mem_Icc (x : ℚ) : wrap180 x ∈ Set.Icc (-180 : ℚ) 180 :=
  ⟨wrapAdd_ge (wrapSub x), wrapAdd_le (wrapSub x) (wrapSub_le x)⟩

theorem wrap180_zero : wrap180 (0 : ℚ) = 0 := by
  unfold wrap180
  rw [wrapSub, dif_neg (by norm_num)]
  rw [wrapAdd, dif_neg (by norm_num)]

theorem wrap180_neg180 : wrap180 (-180 : ℚ) = -180 := by
  unfold wrap180
  rw [wrapSub, dif_neg (by norm_num)]
  rw [wrapAdd, dif_neg (by norm_num)]

/-- C5 counterexample: with the orientation sample at 0° and the home
reference at 180° on the roll axis, the reported home-relative roll is
exactly -180°, which is outside the half-open interval `(-180, 180]`. -/
theorem C5_home_wrap_counterexample :
    (applyHome true 0 0 0 180 0 0).1 = -180 ∧
      (applyHome true 0 0 0 180 0 0).1 ∉ Set.Ioc (-180 : ℚ) 180 := by
  have h1 : (applyHome true 0 0 0 180 0 0).1 = wrap180 (0 - 180) := rfl
  have h2 : (0 : ℚ) - 180 = -180 := by norm_num
  rw [h1, h2, wrap180_neg180]
  refine ⟨rfl, ?_⟩
  simp [Set.mem_Ioc]

/-- C5 (amended): every home-relative angle computed by `respondIMU` with a
home reference set lies in the CLOSED interval `[-180, 180]` (the value
-180 is attainable, so the half-open interval of the claim fails), and when
the orientation sample equals the home reference exactly all three reported
angles are exactly 0. -/
theorem C5_home_wrap_amended :
    (∀ roll pitch yaw hr hp hy : ℚ,
      (applyHome true roll pitch yaw hr hp hy).1 ∈ Set.Icc (-180 : ℚ) 180 ∧
      (applyHome true roll pitch yaw hr hp hy).2.1 ∈ Set.Icc (-180 : ℚ) 180 ∧
      (applyHome true roll pitch yaw hr hp hy).2.2 ∈ Set.Icc (-180 : ℚ) 180) ∧
    (∀ roll pitch yaw : ℚ,
      applyHome true roll pitch yaw roll pitch yaw = (0, 0, 0)) := by
  constructor
  · intro roll pitch yaw hr hp hy
    exact ⟨wrap180_mem_Icc _, wrap180_mem_Icc _, wrap180_mem_Icc _⟩
  · intro roll pitch yaw
    unfold applyHome
    simp only [if_pos, sub_self, wrap180_zero]

/-! ### Claim theorem: liveness (C6) -/

/-- The second `while` loop of `wrap180` never exits on `-inf`: the loop
condition `-inf < -180` holds and `-inf + 360 = -inf` makes no progress. -/
theorem wrapAddF_ninf (n : Nat) : wrapAddF n F32.ninf = none := by
  induction n with
  | zero => rfl
  | succ n ih =>
      rw [wrapAddF]
      simp only [f32lt, f32add, if_pos]
      exact ih

/-- The 12-byte SetHome payload whose three floats are all `+inf`
(bit pattern `0x7F800000`, little-endian bytes `00 00 80 7F`). -/
def infHomePayload : List Nat :=
  [0, 0, 128, 127, 0, 0, 128, 127, 0, 0, 128, 127]

/-- C6: liveness fails (code bug).  (1) The node ACCEPTS a checksum-valid
SetHome request whose 12 payload bytes decode to `+inf` on every axis: it
ACKs and latches home-yaw bit pattern `0x7F800000 = 2139095040` with
`homeSet = true`, so the next GetTelemetry runs `wrap180(rpy.yaw - homeYaw)`
on the float value `0 - inf = -inf`.  (2) `0 - inf` is `-inf`, and (3) the
`wrap180` while-loop on `-inf` does not terminate within ANY number of
iterations - the node hangs, so processing does not complete in finitely
many steps. -/
theorem C6_liveness_code_bug :
    (sendsOf (run (fun _ _ => 0) initState 0
        (sendMsgBytes MSG_SET_HOME 0 1 infHomePayload)).2 =
        [⟨MSG_ACK, DEVICE_ID, HOST_ID, []⟩] ∧
      (run (fun _ _ => 0) initState 0
        (sendMsgBytes MSG_SET_HOME 0 1 infHomePayload)).1.homeYawBits =
        2139095040 ∧
      (run (fun _ _ => 0) initState 0
        (sendMsgBytes MSG_SET_HOME 0 1 infHomePayload)).1.homeSet = true) ∧
    f32sub (F32.fin 0) F32.inf = F32.ninf ∧
    (∀ fuel : Nat, wrap180F fuel (f32sub (F32.fin 0) F32.inf) = none) := by
  refine ⟨⟨by decide, by decide, by decide⟩, rfl, ?_⟩
  intro fuel
  have h1 : f32sub (F32.fin 0) F32.inf = F32.ninf := rfl
  rw [h1]
  have h2 : wrapSubF fuel F32.ninf = some F32.ninf := by
    rw [wrapSubF.eq_def]
    simp [f32lt]
  rw [wrap180F, h2]
  simpa using wrapAddF_ninf fuel

/-! ### Claim theorems: velocity integrator (C8, C10) -/

/-- C8: dt sanity guard.  When the microsecond delta corresponds to
`dt ≥ 0.5 s`, the velocity state is left unchanged while the latest
acceleration sample, its status and the timestamp baseline are still
recorded. -/
theorem C8_dt_guard (st : ImuState) (ax ay az : ℚ) (status now : Nat)
    (hdt : (1 : ℚ) / 2 ≤ dtOf st.last_la_us now) :
    (laSample st ax ay az status now).vx = st.vx ∧
      (laSample st ax ay az status now).vy = st.vy ∧
      (laSample st ax ay az status now).vz = st.vz ∧
      (laSample st ax ay az status now).lax = ax ∧
      (laSample st ax ay az status now).lay = ay ∧
      (laSample st ax ay az status now).laz = az ∧
      (laSample st ax ay az status now).la_status = status ∧
      (laSample st ax ay az status now).last_la_us = now := by
  have h : ¬ dtOf st.last_la_us now < 1 / 2 := not_lt.mpr hdt
  rw [one_div] at h
  unfold laSample
  simp [h]

/-- Concrete integrator state for the C8 witness. -/
noncomputable def c8St : ImuState :=
  { lax := 0, lay := 0, laz := 0, la_status := 0,
    vx := 1, vy := 2, vz := 3, last_la_us := 0 }

theorem C8_dt_guard_witness :
    ((1 : ℚ) / 2 ≤ dtOf c8St.last_la_us 500000) ∧
    ((laSample c8St 4 5 6 7 500000).vx = c8St.vx ∧
      (laSample c8St 4 5 6 7 500000).vy = c8St.vy ∧
      (laSample c8St 4 5 6 7 500000).vz = c8St.vz ∧
      (laSample c8St 4 5 6 7 500000).lax = 4 ∧
      (laSample c8St 4 5 6 7 500000).lay = 5 ∧
      (laSample c8St 4 5 6 7 500000).laz = 6 ∧
      (laSample c8St 4 5 6 7 500000).la_status = 7 ∧
      (laSample c8St 4 5 6 7 500000).last_la_us = 500000) :=
  ⟨by norm_num [dtOf, deltaUs, c8St],
   C8_dt_guard c8St 4 5 6 7 500000 (by norm_num [dtOf, deltaUs, c8St])⟩

/-- The `uint32` timestamp delta of two consecutive samples `d` apart is
exactly `d` (for `d` below `2^32`), regardless of the previous baseline. -/
theorem deltaUs_add (last d : Nat) (h : d < 2 ^ 32) :
    deltaUs last (last + d) = d := by
  unfold deltaUs
  omega

/-- One zero-acceleration sample below the dt guard multiplies `vx` by the
decay factor `exp(-VEL_DAMP * dt)`. -/
theorem zeroIter_vx_step (st : ImuState) (d n : Nat) (hd2 : d < 500000) :
    (zeroIter st d (n + 1)).vx =
      (zeroIter st d n).vx *
        Real.exp (-VEL_DAMP * ((d : ℚ) * (1 / 1000000) : ℚ)) := by
  have hdt : dtOf (zeroIter st d n).last_la_us ((zeroIter st d n).last_la_us + d) =
      (d : ℚ) * (1 / 1000000) := by
    unfold dtOf
    rw [deltaUs_add _ _ (by omega)]
  have hguard : ((d : ℚ) * (1 / 1000000)) < 1 / 2 := by
    have hc : (d : ℚ) < 500000 := by exact_mod_cast hd2
    linarith
  have hdb : ¬ LA_DEADBAND < |(0 : ℚ)| := by
    unfold LA_DEADBAND
    norm_num
  show (laSample (zeroIter st d n) 0 0 0 (zeroIter st d n).la_status
      ((zeroIter st d n).last_la_us + d)).vx = _
  unfold laSample axisV
  simp only [hdt, if_pos hguard, if_neg hdb]

/-- Closed form of the zero-acceleration decay sequence. -/
theorem zeroIter_vx_pow (st : ImuState) (d : Nat) (hd2 : d < 500000) :
    ∀ n, (zeroIter st d n).vx =
      st.vx * (Real.exp (-VEL_DAMP * ((d : ℚ) * (1 / 1000000) : ℚ))) ^ n := by
  intro n
  induction n with
  | zero => simp [zeroIter]
  | succ n ih =>
      rw [zeroIter_vx_step st d n hd2, ih, pow_succ]
      ring

/-- The decay factor lies strictly between 0 and 1 for a positive dt. -/
theorem decay_factor_mem (d : Nat) (hd1 : 0 < d) :
    0 < Real.exp (-VEL_DAMP * ((d : ℚ) * (1 / 1000000) : ℚ)) ∧
      Real.exp (-VEL_DAMP * ((d : ℚ) * (1 / 1000000) : ℚ)) < 1 := by
  refine ⟨Real.exp_pos _, Real.exp_lt_one_iff.mpr ?_⟩
  have hq : (0 : ℚ) < (d : ℚ) * (1 / 1000000) := by
    have hc : (0 : ℚ) < (d : ℚ) := by exact_mod_cast hd1
    positivity
  have hr : (0 : ℝ) < (((d : ℚ) * (1 / 1000000) : ℚ) : ℝ) := by exact_mod_cast hq
  have hv : (0 : ℝ) < VEL_DAMP := by
    unfold VEL_DAMP
    norm_num
  nlinarith

/-- C10 counterexample: with `vx = 1` and zero acceleration arriving every
0.1 s, the velocity NEVER becomes exactly zero, at any number of samples -
the exponential decay only approaches zero. -/
noncomputable def c10St : ImuState :=
  { lax := 0, lay := 0, laz := 0, la_status := 0,
    vx := 1, vy := 0, vz := 0, last_la_us := 0 }

theorem C10_decay_counterexample :
    ¬ ∃ n, (zeroIter c10St 100000 n).vx = 0 := by
  rintro ⟨n, hn⟩
  rw [zeroIter_vx_pow c10St 100000 (by norm_num) n] at hn
  have h1 : c10St.vx = 1 := rfl
  rw [h1, one_mul] at hn
  exact absurd hn (pow_ne_zero n (ne_of_gt (Real.exp_pos _)))

/-- C10 (amended): under successive exactly-zero acceleration samples
arriving with positive dt below the guard, a velocity of either sign keeps
its sign (no sign flip, no oscillation), is strictly decreasing in
magnitude, never reaches exactly zero from a nonzero start, and converges
to zero in the limit - it does NOT become exactly zero within a bounded
number of samples. -/
theorem C10_decay_amended (st : ImuState) (d : Nat) (hd1 : 0 < d)
    (hd2 : d < 500000) (hv : st.vx ≠ 0) :
    (∀ n, (0 < st.vx → 0 < (zeroIter st d n).vx) ∧
        (st.vx < 0 → (zeroIter st d n).vx < 0)) ∧
      (∀ n, |(zeroIter st d (n + 1)).vx| < |(zeroIter st d n).vx|) ∧
      (∀ n, (zeroIter st d n).vx ≠ 0) ∧
      Filter.Tendsto (fun n => (zeroIter st d n).vx) Filter.atTop (nhds 0) := by
  obtain ⟨hq0, hq1⟩ := decay_factor_mem d hd1
  have hne : ∀ n, (zeroIter st d n).vx ≠ 0 := by
    intro n
    rw [zeroIter_vx_pow st d hd2 n]
    exact mul_ne_zero hv (pow_ne_zero n (ne_of_gt hq0))
  refine ⟨?_, ?_, hne, ?_⟩
  · intro n
    constructor
    · intro hvp
      rw [zeroIter_vx_pow st d hd2 n]
      exact mul_pos hvp (pow_pos hq0 n)
    · intro hvn
      rw [zeroIter_vx_pow st d hd2 n]
      exact mul_neg_of_neg_of_pos hvn (pow_pos hq0 n)
  · intro n
    have habs : 0 < |(zeroIter st d n).vx| := abs_pos.mpr (hne n)
    rw [zeroIter_vx_step st d n hd2, abs_mul, abs_of_pos hq0]
    calc |(zeroIter st d n).vx| *
          Real.exp (-VEL_DAMP * ((d : ℚ) * (1 / 1000000) : ℚ))
        < |(zeroIter st d n).vx| * 1 := mul_lt_mul_of_pos_left hq1 habs
      _ = |(zeroIter st d n).vx| := mul_one _
  · have ht : Filter.Tendsto
        (fun n => st.vx *
          (Real.exp (-VEL_DAMP * ((d : ℚ) * (1 / 1000000) : ℚ))) ^ n)
        Filter.atTop (nhds (st.vx * 0)) :=
      (tendsto_pow_atTop_nhds_zero_of_lt_one (le_of_lt hq0) hq1).const_mul st.vx
    rw [mul_zero] at ht
    refine ht.congr ?_
    intro n
    exact (zeroIter_vx_pow st d hd2 n).symm

theorem C10_decay_amended_witness :
    (0 < 100000 ∧ 100000 < 500000 ∧ c10St.vx ≠ 0) ∧
    ((∀ n, (0 < c10St.vx → 0 < (zeroIter c10St 100000 n).vx) ∧
        (c10St.vx < 0 → (zeroIter c10St 100000 n).vx < 0)) ∧
      (∀ n, |(zeroIter c10St 100000 (n + 1)).vx| <
        |(zeroIter c10St 100000 n).vx|) ∧
      (∀ n, (zeroIter c10St 100000 n).vx ≠ 0) ∧
      Filter.Tendsto (fun n => (zeroIter c10St 100000 n).vx)
        Filter.atTop (nhds 0)) :=
  ⟨⟨by decide, by decide, by norm_num [c10St]⟩,
   C10_decay_amended c10St 100000 (by decide) (by decide) (by norm_num [c10St])⟩
